import Mathlib

/-!
Verification development for the ERPNext budget module
(`erpnext/accounts/doctype/budget/budget.py`).

The development shallowly embeds the period-allocation algorithm
(`Budget.allocate_budget` and its helpers) and the budget-enforcement logic
(`validate_budget_records`, `compare_expense_with_budget`, `get_actions`,
`get_accumulated_monthly_budget`, `get_actual_expense`) and proves or refutes
the specification's claims about them.

Modelling conventions:
* Python `datetime.date` values are embedded as a month index
  (`year * 12 + (month - 1)`) together with a day-of-month; the lexicographic
  order on `(months, day)` coincides with the calendar order for the month
  range `1..12` that `datetime.date` enforces.
* Currency values are embedded as exact rationals.  `frappe.utils.flt` with an
  explicit precision converts to float and rounds to that many decimal digits
  using round-half-to-even (frappe's default "Banker's Rounding"); we model it
  on `ℚ`, abstracting from binary floating-point representation error.
  `flt` without a precision only coerces to float and is modelled as the
  identity.
* Database reads performed by the enforcer are modelled as pure aggregations
  over explicit lists carried in an environment, and each read is recorded in
  an effect trace so that "no query is issued" claims are statable.
-/

namespace Erpnext

/-- Calendar date: `months = year * 12 + (month - 1)` and a day of month.
Mirrors Python `datetime.date` (whose `month` is always in `1..12`, so the
month-index encoding is faithful). -/
structure Date where
  months : ℕ
  day : ℕ
deriving DecidableEq

/-- Build a date from year / month (1-based) / day. -/
def mkDate (y m d : ℕ) : Date := ⟨y * 12 + (m - 1), d⟩

def Date.year (d : Date) : ℕ := d.months / 12

def Date.month (d : Date) : ℕ := d.months % 12 + 1

/-- Python `date` comparison: lexicographic on (year, month, day), i.e. on
(months, day) in the month-index encoding. -/
def Date.le (a b : Date) : Prop :=
  a.months < b.months ∨ (a.months = b.months ∧ a.day ≤ b.day)

instance : LE Date := ⟨Date.le⟩

instance (a b : Date) : Decidable (a ≤ b) :=
  inferInstanceAs (Decidable (a.months < b.months ∨ (a.months = b.months ∧ a.day ≤ b.day)))

theorem Date.le_def (a b : Date) :
    a ≤ b ↔ (a.months < b.months ∨ (a.months = b.months ∧ a.day ≤ b.day)) := Iff.rfl

/-- Gregorian leap-year rule. -/
def isLeap (y : ℕ) : Bool := (y % 4 == 0 && y % 100 != 0) || y % 400 == 0

/-- Number of days of the month designated by a month index. -/
def daysInMonth (ms : ℕ) : ℕ :=
  if ms % 12 + 1 = 2 then (if isLeap (ms / 12) then 29 else 28)
  else if ms % 12 + 1 = 4 ∨ ms % 12 + 1 = 6 ∨ ms % 12 + 1 = 9 ∨ ms % 12 + 1 = 11 then 30
  else 31

/-- Embedding of `frappe.utils.data.get_first_day`: first day of the month of the date. -/
def get_first_day (d : Date) : Date := ⟨d.months, 1⟩

/-- Embedding of `frappe.utils.get_last_day`: last day of the month of the date. -/
def get_last_day (d : Date) : Date := ⟨d.months, daysInMonth d.months⟩

/-- Embedding of `frappe.utils.add_months`: shift by `n` months (relativedelta semantics:
the day is kept and clamped to the length of the target month). -/
def add_months (d : Date) (n : ℕ) : Date :=
  ⟨d.months + n, min d.day (daysInMonth (d.months + n))⟩

/-- Python `min` on two dates (returns the first argument when equal). -/
def minDate (a b : Date) : Date := if a ≤ b then a else b

/-- The day following `d` in the calendar. -/
def day_after (d : Date) : Date :=
  if d.day < daysInMonth d.months then ⟨d.months, d.day + 1⟩ else ⟨d.months + 1, 1⟩

/-- Round a rational to the nearest integer, ties to even (Python 3 `round`,
frappe's default "Banker's Rounding"). -/
def round_half_even (x : ℚ) : ℤ :=
  if x - (⌊x⌋ : ℚ) < 1/2 then ⌊x⌋
  else if (1 : ℚ)/2 < x - (⌊x⌋ : ℚ) then ⌊x⌋ + 1
  else if ⌊x⌋ % 2 = 0 then ⌊x⌋ else ⌊x⌋ + 1

/-- Embedding of `frappe.utils.flt(value, precision)`: round to `precision` decimal digits.
Binary floating-point representation error is abstracted away; the rounding
rule is round-half-to-even, frappe's default. -/
def flt (x : ℚ) (precision : ℕ) : ℚ :=
  (round_half_even (x * (10 : ℚ) ^ precision) : ℚ) / (10 : ℚ) ^ precision

/-- Values of `Budget.allocation_frequency` (`DF.Literal`). -/
inductive Frequency
  | Monthly
  | Quarterly
  | HalfYearly
  | Yearly
deriving DecidableEq

/-- Embedding of `Budget.get_month_increment`: months to move forward for the next period. -/
def get_month_increment : Frequency → ℕ
  | .Monthly => 1
  | .Quarterly => 3
  | .HalfYearly => 6
  | .Yearly => 12

/-- Embedding of `Budget.get_period_end`: end date for a period starting at `start_date`. -/
def get_period_end (start_date : Date) : Frequency → Date
  | .Monthly => get_last_day start_date
  | .Quarterly => get_last_day (add_months start_date 2)
  | .HalfYearly => get_last_day (add_months start_date 5)
  | .Yearly => get_last_day (add_months start_date 11)

/-- Loop body of `Budget.get_budget_periods`, with an explicit fuel bound on
the number of iterations.  Each iteration advances the cursor by at least one
month, so `end_date.months + 1 - start_date.months` iterations always suffice
(`get_budget_periods_go_fuel` below); the fuel is only a termination device,
not a semantic change. -/
def get_budget_periods_go (freq : Frequency) (end_date : Date) :
    ℕ → Date → List (Date × Date)
  | 0, _ => []
  | fuel + 1, start_date =>
    if start_date ≤ end_date then
      let period_start := get_first_day start_date
      let period_end := minDate (get_period_end period_start freq) end_date
      (period_start, period_end) ::
        get_budget_periods_go freq end_date fuel
          (add_months period_start (get_month_increment freq))
    else []

/-- Embedding of `Budget.get_budget_periods`: list of (start, end) period pairs covering
the budget date range at the given frequency. -/
def get_budget_periods (freq : Frequency) (start_date end_date : Date) :
    List (Date × Date) :=
  get_budget_periods_go freq end_date (end_date.months + 1 - start_date.months) start_date

/-- One row of the `budget_distribution` child table. -/
structure BudgetDistributionRow where
  start_date : Date
  end_date : Date
  amount : ℚ
  percent : ℚ
deriving DecidableEq

/-- Embedding of `Budget.add_allocated_amount`: returns the (amount, percent) pair put on a
freshly appended distribution row. -/
def add_allocated_amount (distribute_equally : Bool) (budget_amount : ℚ)
    (row_percent : ℚ) : ℚ × ℚ :=
  if distribute_equally = false then (0, 0)
  else (flt (budget_amount * row_percent / 100) 2, flt row_percent 3)

/-- The fields of a `Budget` document that drive `allocate_budget`. -/
structure BudgetConfig where
  budget_amount : ℚ
  distribute_equally : Bool
  allocation_frequency : Frequency
  budget_start_date : Date
  budget_end_date : Date
deriving DecidableEq

/-- Body of `Budget.allocate_budget` (after the `revision_of` and
`should_regenerate_budget_distribution` early returns): regenerate the
`budget_distribution` rows from scratch. -/
def allocate_budget (b : BudgetConfig) : List BudgetDistributionRow :=
  let periods := get_budget_periods b.allocation_frequency b.budget_start_date b.budget_end_date
  let total_periods := periods.length
  let row_percent : ℚ := if total_periods = 0 then 0 else (100 : ℚ) / (total_periods : ℚ)
  periods.map fun p =>
    { start_date := p.1
      end_date := p.2
      amount := (add_allocated_amount b.distribute_equally b.budget_amount row_percent).1
      percent := (add_allocated_amount b.distribute_equally b.budget_amount row_percent).2 }

/-- Budget action literals (`DF.Literal ["", "Stop", "Warn", "Ignore"]`). -/
inductive Action
  | Empty
  | Stop
  | Warn
  | Ignore
deriving DecidableEq

/-- The transaction document types that `get_actions` distinguishes
(`args.doctype`); every other doctype behaves like `Other`. -/
inductive DocKind
  | MaterialRequest
  | PurchaseOrder
  | Other
deriving DecidableEq

/-- The two message templates of `compare_expense_with_budget`. -/
inductive MsgVariant
  | alreadyExceeded
  | willBeExceeded
deriving DecidableEq

/-- Observable side effects of one enforcement run: aggregation queries,
non-fatal warnings (`frappe.msgprint`) and the blocking `BudgetError`
(`frappe.throw`). -/
inductive Effect
  | queryActualExpense (month_end_date : Option Date)
  | queryRequestedAmount
  | queryOrderedAmount
  | queryAccumulatedMonthlyBudget (posting_date : Date)
  | msgprint (variant : MsgVariant) (diff : ℚ)
  | throwErr (variant : MsgVariant) (diff : ℚ)
deriving DecidableEq

/-- One GL Entry row as seen by the `get_actual_expense` SQL query.  The
account / company / dimension conditions are abstracted into the single flag
`matches_scope`. -/
structure GLEntry where
  posting_date : Date
  debit : ℚ
  credit : ℚ
  is_cancelled : Bool
  docstatus : ℕ
  matches_scope : Bool
deriving DecidableEq

/-- Evaluation context of one `validate_expense_against_budget` call:
the transaction data in `args`, the fiscal-year window of the budget, and the
database state read by the aggregation queries. -/
structure Env where
  doctype : DocKind
  posting_date : Date
  fy_start : Date
  fy_end : Date
  ledger : List GLEntry
  requested_pending : ℚ
  ordered_pending : ℚ
  exception_approver_role_set : Bool
  user_has_approver_role : Bool
deriving DecidableEq

/-- WHERE clause of the `get_actual_expense` query for one GL entry:
not cancelled, submitted, in scope, inside the fiscal window, and — only when
`args.month_end_date` is set — `posting_date <= month_end_date`. -/
def gl_matches (env : Env) (month_end_date : Option Date) (g : GLEntry) : Bool :=
  !g.is_cancelled && g.matches_scope && (g.docstatus == 1)
    && decide (env.fy_start ≤ g.posting_date) && decide (g.posting_date ≤ env.fy_end)
    && (match month_end_date with
        | none => true
        | some m => decide (g.posting_date ≤ m))

/-- Embedding of `get_actual_expense`: `sum(gle.debit) - sum(gle.credit)` over the matching
GL entries. -/
def get_actual_expense (env : Env) (month_end_date : Option Date) : ℚ :=
  ((env.ledger.filter (gl_matches env month_end_date)).map (·.debit)).sum
    - ((env.ledger.filter (gl_matches env month_end_date)).map (·.credit)).sum

/-- The pending amount used by `compare_expense_with_budget`: the caller's
`expense_amount` when non-zero (Python truthiness of `if not amount`),
otherwise derived from the requested / ordered aggregations according to the
document type and applicability flags. -/
def pending_amount (env : Env) (for_mr for_po : Bool) (amount0 : ℚ) : ℚ :=
  if amount0 = 0 then
    if env.doctype = DocKind.MaterialRequest ∧ for_mr = true then
      env.requested_pending + env.ordered_pending
    else if env.doctype = DocKind.PurchaseOrder ∧ for_po = true then
      env.ordered_pending
    else 0
  else amount0

/-- The requested/ordered aggregation queries run by
`compare_expense_with_budget` exactly when the caller passed no explicit
amount (`if not amount`). -/
def pending_queries (amount0 : ℚ) : List Effect :=
  if amount0 = 0 then [Effect.queryRequestedAmount, Effect.queryOrderedAmount] else []

/-- The approver override inside `compare_expense_with_budget`: when the
company has an `exception_budget_approver_role` and the session user holds it,
the action is downgraded to Warn. -/
def resolved_action (env : Env) (action : Action) : Action :=
  if env.exception_approver_role_set = true ∧ env.user_has_approver_role = true then
    Action.Warn
  else action

/-- Embedding of `compare_expense_with_budget`: queries the actual expense (and, without an
explicit amount, the requested/ordered aggregations), and when
`total_expense > budget_amount` either throws `BudgetError` (resolved Stop) or
surfaces a warning message.  Returns the effect trace and whether
`BudgetError` was raised. -/
def compare_expense_with_budget (env : Env) (month_end_date : Option Date)
    (for_mr for_po : Bool) (budget_amount : ℚ) (action : Action) (amount0 : ℚ) :
    List Effect × Bool :=
  let actual_expense := get_actual_expense env month_end_date
  let qs := Effect.queryActualExpense month_end_date :: pending_queries amount0
  let total_expense := actual_expense + pending_amount env for_mr for_po amount0
  if total_expense > budget_amount then
    let diff :=
      if actual_expense > budget_amount then actual_expense - budget_amount
      else total_expense - budget_amount
    let variant :=
      if actual_expense > budget_amount then MsgVariant.alreadyExceeded
      else MsgVariant.willBeExceeded
    if resolved_action env action = Action.Stop then
      (qs ++ [Effect.throwErr variant diff], true)
    else
      (qs ++ [Effect.msgprint variant diff], false)
  else (qs, false)

/-- One row of the `budget_records` query driving `validate_budget_records`,
together with the budget's `budget_distribution` child rows (read later by
`get_accumulated_monthly_budget`). -/
structure BudgetRecordRow where
  budget_amount : ℚ
  for_material_request : Bool
  for_purchase_order : Bool
  action_if_annual_budget_exceeded : Action
  action_if_accumulated_monthly_budget_exceeded : Action
  action_if_annual_budget_exceeded_on_mr : Action
  action_if_accumulated_monthly_budget_exceeded_on_mr : Action
  action_if_annual_budget_exceeded_on_po : Action
  action_if_accumulated_monthly_budget_exceeded_on_po : Action
  distribution : List BudgetDistributionRow
deriving DecidableEq

/-- Embedding of `get_actions`: the (annual, accumulated-monthly) action pair — the
document-type-specific pair when the doctype matches and its applicability
flag is set, the base pair otherwise. -/
def get_actions (doctype : DocKind) (b : BudgetRecordRow) : Action × Action :=
  if doctype = DocKind.MaterialRequest ∧ b.for_material_request = true then
    (b.action_if_annual_budget_exceeded_on_mr,
     b.action_if_accumulated_monthly_budget_exceeded_on_mr)
  else if doctype = DocKind.PurchaseOrder ∧ b.for_purchase_order = true then
    (b.action_if_annual_budget_exceeded_on_po,
     b.action_if_accumulated_monthly_budget_exceeded_on_po)
  else
    (b.action_if_annual_budget_exceeded,
     b.action_if_accumulated_monthly_budget_exceeded)

/-- Embedding of `get_accumulated_monthly_budget`: sum of the budget's distribution-row
amounts whose `end_date >= posting_date`. -/
def get_accumulated_monthly_budget (rows : List BudgetDistributionRow)
    (posting_date : Date) : ℚ :=
  ((rows.filter (fun r => decide (posting_date ≤ r.end_date))).map (·.amount)).sum

/-- Modelled from the spec's words (for comparison with
`get_accumulated_monthly_budget`): the cumulative allocation of the periods up
to and including the period containing the posting date, i.e. the rows whose
`start_date <= posting_date`. -/
def spec_cumulative_allocation_to_date (rows : List BudgetDistributionRow)
    (posting_date : Date) : ℚ :=
  ((rows.filter (fun r => decide (r.start_date ≤ posting_date))).map (·.amount)).sum

/-- Loop of `validate_budget_records` over the budget records, threading the
mutable `args["month_end_date"]` entry (set by a monthly check and never
cleared, so it persists into later iterations).  A `frappe.throw` from
`compare_expense_with_budget` aborts the whole loop; the Boolean result
records whether that happened. -/
def validate_go (env : Env) (expense_amount : ℚ) :
    Option Date → List BudgetRecordRow → List Effect × Bool
  | _, [] => ([], false)
  | month_end, b :: rest =>
    if b.budget_amount = 0 then validate_go env expense_amount month_end rest
    else
      let ya := (get_actions env.doctype b).1
      let ma := (get_actions env.doctype b).2
      let r1 :=
        if ya = Action.Stop ∨ ya = Action.Warn then
          compare_expense_with_budget env month_end b.for_material_request
            b.for_purchase_order b.budget_amount ya expense_amount
        else ([], false)
      if r1.2 then (r1.1, true)
      else if ma = Action.Stop ∨ ma = Action.Warn then
        let amb := get_accumulated_monthly_budget b.distribution env.posting_date
        let me2 := some (get_last_day env.posting_date)
        let r2 := compare_expense_with_budget env me2 b.for_material_request
          b.for_purchase_order amb ma expense_amount
        if r2.2 then
          (r1.1 ++ Effect.queryAccumulatedMonthlyBudget env.posting_date :: r2.1, true)
        else
          let r3 := validate_go env expense_amount me2 rest
          (r1.1 ++ Effect.queryAccumulatedMonthlyBudget env.posting_date :: r2.1 ++ r3.1,
           r3.2)
      else
        let r3 := validate_go env expense_amount month_end rest
        (r1.1 ++ r3.1, r3.2)

/-- Embedding of `validate_budget_records`: run the per-record checks; `args` carries no
`month_end_date` on entry. -/
def validate_budget_records (env : Env) (records : List BudgetRecordRow)
    (expense_amount : ℚ) : List Effect × Bool :=
  validate_go env expense_amount none records

/-- The spec's worked allocation scenario: budget_amount 1000 over calendar
year 2024, Monthly frequency, equal distribution. -/
def scenario_cfg : BudgetConfig :=
  { budget_amount := 1000
    distribute_equally := true
    allocation_frequency := Frequency.Monthly
    budget_start_date := mkDate 2024 1 1
    budget_end_date := mkDate 2024 12 31 }

/-- The same scenario with a zero budget amount. -/
def zero_amount_cfg : BudgetConfig :=
  { scenario_cfg with budget_amount := 0 }

/-- A two-period distribution used to separate `get_accumulated_monthly_budget`
from the spec's cumulative-to-date reading: January 2024 allocated 10,
February 2024 allocated 20. -/
def demo_rows : List BudgetDistributionRow :=
  [ { start_date := mkDate 2024 1 1, end_date := mkDate 2024 1 31, amount := 10, percent := 50 }
  , { start_date := mkDate 2024 2 1, end_date := mkDate 2024 2 29, amount := 20, percent := 50 } ]

/-- The allocation scenario with `distribute_equally` unset. -/
def flat_cfg : BudgetConfig :=
  { scenario_cfg with distribute_equally := false }

/-- Demo evaluation context: an Other-doctype transaction posted 2024-03-15 in
fiscal year 2024, whose ledger already carries a 1200 expense. -/
def demo_env : Env :=
  { doctype := DocKind.Other
    posting_date := mkDate 2024 3 15
    fy_start := mkDate 2024 1 1
    fy_end := mkDate 2024 12 31
    ledger := [{ posting_date := mkDate 2024 2 10, debit := 1200, credit := 0,
                 is_cancelled := false, docstatus := 1, matches_scope := true }]
    requested_pending := 0
    ordered_pending := 0
    exception_approver_role_set := false
    user_has_approver_role := false }

/-- The same context with a configured exception-approver role held by the
actor. -/
def demo_env_approver : Env :=
  { demo_env with exception_approver_role_set := true, user_has_approver_role := true }

/-- A budget record with pairwise distinct base / MR / PO action pairs. -/
def demo_record_mr : BudgetRecordRow :=
  { budget_amount := 1000
    for_material_request := true
    for_purchase_order := true
    action_if_annual_budget_exceeded := Action.Stop
    action_if_accumulated_monthly_budget_exceeded := Action.Stop
    action_if_annual_budget_exceeded_on_mr := Action.Warn
    action_if_accumulated_monthly_budget_exceeded_on_mr := Action.Ignore
    action_if_annual_budget_exceeded_on_po := Action.Ignore
    action_if_accumulated_monthly_budget_exceeded_on_po := Action.Empty
    distribution := demo_rows }

/-- A budget record whose base actions are both Ignore. -/
def demo_record_ignore : BudgetRecordRow :=
  { demo_record_mr with
    for_material_request := false
    for_purchase_order := false
    action_if_annual_budget_exceeded := Action.Ignore
    action_if_accumulated_monthly_budget_exceeded := Action.Ignore }

/-- A budget record with only the accumulated-monthly check active. -/
def demo_record_monthly : BudgetRecordRow :=
  { demo_record_ignore with
    action_if_accumulated_monthly_budget_exceeded := Action.Warn }

/-- A budget record with a zero amount but Stop actions everywhere. -/
def demo_record_zero : BudgetRecordRow :=
  { budget_amount := 0
    for_material_request := false
    for_purchase_order := false
    action_if_annual_budget_exceeded := Action.Stop
    action_if_accumulated_monthly_budget_exceeded := Action.Stop
    action_if_annual_budget_exceeded_on_mr := Action.Stop
    action_if_accumulated_monthly_budget_exceeded_on_mr := Action.Stop
    action_if_annual_budget_exceeded_on_po := Action.Stop
    action_if_accumulated_monthly_budget_exceeded_on_po := Action.Stop
    distribution := demo_rows }

theorem get_month_increment_pos (freq : Frequency) : 1 ≤ get_month_increment freq := by
  cases freq <;> simp [get_month_increment]

theorem daysInMonth_ge (ms : ℕ) : 28 ≤ daysInMonth ms := by
  unfold daysInMonth
  split_ifs <;> omega

theorem add_months_first (M n : ℕ) : add_months ⟨M, 1⟩ n = ⟨M + n, 1⟩ := by
  have h := daysInMonth_ge (M + n)
  simp [add_months]
  omega

theorem get_period_end_first (M : ℕ) (freq : Frequency) :
    get_period_end ⟨M, 1⟩ freq =
      ⟨M + (get_month_increment freq - 1),
       daysInMonth (M + (get_month_increment freq - 1))⟩ := by
  cases freq <;>
    simp [get_period_end, get_last_day, add_months, get_month_increment, get_first_day]

theorem get_budget_periods_go_nil {freq : Frequency} {e s : Date} (h : ¬ s ≤ e) :
    ∀ fuel, get_budget_periods_go freq e fuel s = [] := by
  intro fuel
  cases fuel <;> simp [get_budget_periods_go, h]

theorem get_budget_periods_go_fuel {freq : Frequency} {e : Date} :
    ∀ fuel, ∀ other fuel2, e.months + 1 - other.months ≤ fuel →
      e.months + 1 - other.months ≤ fuel2 →
      get_budget_periods_go freq e fuel other = get_budget_periods_go freq e fuel2 other := by
  intro fuel
  induction fuel with
  | zero =>
    intro other fuel2 h1 _
    have hnot : ¬ other ≤ e := by
      rw [Date.le_def]
      omega
    rw [get_budget_periods_go_nil hnot, get_budget_periods_go_nil hnot]
  | succ n ih =>
    intro other fuel2 h1 h2
    by_cases hle : other ≤ e
    · have hm : other.months ≤ e.months := by
        rcases hle with h | ⟨h, _⟩ <;> omega
      obtain ⟨m, rfl⟩ : ∃ m, fuel2 = m + 1 := by
        refine ⟨fuel2 - 1, ?_⟩
        omega
      simp only [get_budget_periods_go, if_pos hle]
      have hstep :
          (add_months (get_first_day other) (get_month_increment freq)).months =
            other.months + get_month_increment freq := by
        simp [get_first_day, add_months]
      have hinc := get_month_increment_pos freq
      congr 1
      exact ih _ m (by omega) (by omega)
    · rw [get_budget_periods_go_nil hle, get_budget_periods_go_nil hle]

theorem get_budget_periods_eq (freq : Frequency) (s e : Date) :
    get_budget_periods freq s e =
      if s ≤ e then
        (get_first_day s,
          minDate (get_period_end (get_first_day s) freq) e) ::
          get_budget_periods freq (add_months (get_first_day s) (get_month_increment freq)) e
      else [] := by
  by_cases hle : s ≤ e
  · have hm : s.months ≤ e.months := by
      rcases hle with h | ⟨h, _⟩ <;> omega
    unfold get_budget_periods
    obtain ⟨m, hfe⟩ : ∃ m, e.months + 1 - s.months = m + 1 := by
      refine ⟨e.months - s.months, ?_⟩
      omega
    rw [hfe]
    simp only [get_budget_periods_go, if_pos hle]
    have hstep :
        (add_months (get_first_day s) (get_month_increment freq)).months =
          s.months + get_month_increment freq := by
      simp [get_first_day, add_months]
    have hinc := get_month_increment_pos freq
    congr 1
    exact get_budget_periods_go_fuel m _ _ (by omega) (by omega)
  · unfold get_budget_periods
    rw [get_budget_periods_go_nil hle, if_neg hle]

theorem date_le_mk_iff {am ad bm bd : ℕ} :
    (⟨am, ad⟩ : Date) ≤ (⟨bm, bd⟩ : Date) ↔ (am < bm ∨ (am = bm ∧ ad ≤ bd)) := Iff.rfl

theorem day_after_last (M : ℕ) : day_after ⟨M, daysInMonth M⟩ = ⟨M + 1, 1⟩ := by
  unfold day_after
  exact if_neg (lt_irrefl _)

/-- Structural facts about the period loop, proved by induction on the fuel:
the head period starts at the first day of the cursor month, the last period
ends exactly at `end_date`, consecutive periods are contiguous, and every
period is a month-aligned block offset from the start month by a multiple of
the frequency increment. -/
theorem get_budget_periods_go_spec (freq : Frequency) (em ed : ℕ)
    (he1 : 1 ≤ ed) (he2 : ed ≤ daysInMonth em) :
    ∀ fuel sm sd, em + 1 - sm ≤ fuel → (⟨sm, sd⟩ : Date) ≤ ⟨em, ed⟩ → 1 ≤ sd →
      (get_budget_periods_go freq ⟨em, ed⟩ fuel ⟨sm, sd⟩).head? =
          some (⟨sm, 1⟩, minDate (get_period_end ⟨sm, 1⟩ freq) ⟨em, ed⟩) ∧
      ((get_budget_periods_go freq ⟨em, ed⟩ fuel ⟨sm, sd⟩).getLast?).map Prod.snd =
          some (⟨em, ed⟩ : Date) ∧
      List.Chain' (fun p q => q.1 = day_after p.2)
          (get_budget_periods_go freq ⟨em, ed⟩ fuel ⟨sm, sd⟩) ∧
      ∀ p ∈ get_budget_periods_go freq ⟨em, ed⟩ fuel ⟨sm, sd⟩,
        p.1 ≤ p.2 ∧ p.1.day = 1 ∧ ∃ k, p.1.months = sm + k * get_month_increment freq := by
  intro fuel
  induction fuel with
  | zero =>
    intro sm sd hfuel hse hsd
    exfalso
    rcases date_le_mk_iff.mp hse with h | ⟨h, _⟩ <;> omega
  | succ n ih =>
    intro sm sd hfuel hse hsd
    have hinc := get_month_increment_pos freq
    have hm : sm ≤ em := by
      rcases date_le_mk_iff.mp hse with h | ⟨h, _⟩ <;> omega
    have hdim := daysInMonth_ge (sm + (get_month_increment freq - 1))
    simp only [get_budget_periods_go, if_pos hse]
    have hfd : get_first_day ⟨sm, sd⟩ = (⟨sm, 1⟩ : Date) := rfl
    rw [hfd, add_months_first, get_period_end_first]
    by_cases hnext : (⟨sm + get_month_increment freq, 1⟩ : Date) ≤ (⟨em, ed⟩ : Date)
    · have hnm : sm + get_month_increment freq ≤ em := by
        rcases date_le_mk_iff.mp hnext with h | ⟨h, _⟩ <;> omega
      have hpele :
          (⟨sm + (get_month_increment freq - 1),
            daysInMonth (sm + (get_month_increment freq - 1))⟩ : Date) ≤ ⟨em, ed⟩ :=
        date_le_mk_iff.mpr (Or.inl (by omega))
      have hmin :
          minDate
            ⟨sm + (get_month_increment freq - 1),
              daysInMonth (sm + (get_month_increment freq - 1))⟩ ⟨em, ed⟩ =
            ⟨sm + (get_month_increment freq - 1),
              daysInMonth (sm + (get_month_increment freq - 1))⟩ := by
        unfold minDate
        rw [if_pos hpele]
      obtain ⟨ih1, ih2, ih3, ih4⟩ :=
        ih (sm + get_month_increment freq) 1 (by omega) hnext (le_refl 1)
      refine ⟨rfl, ?_, ?_, ?_⟩
      · cases htail :
          get_budget_periods_go freq ⟨em, ed⟩ n ⟨sm + get_month_increment freq, 1⟩ with
        | nil => rw [htail] at ih1; simp at ih1
        | cons x xs =>
          rw [htail] at ih2
          rw [List.getLast?_cons_cons]
          exact ih2
      · refine List.chain'_cons'.mpr ⟨?_, ih3⟩
        intro y hy
        rw [ih1] at hy
        simp only [Option.mem_def, Option.some.injEq] at hy
        subst hy
        show (⟨sm + get_month_increment freq, 1⟩ : Date) =
          day_after (minDate
            ⟨sm + (get_month_increment freq - 1),
              daysInMonth (sm + (get_month_increment freq - 1))⟩ ⟨em, ed⟩)
        rw [hmin, day_after_last]
        simp only [Date.mk.injEq, and_true]
        omega
      · intro p hp
        rcases List.mem_cons.mp hp with rfl | hp2
        · refine ⟨?_, rfl, 0, by simp⟩
          show (⟨sm, 1⟩ : Date) ≤ minDate
            ⟨sm + (get_month_increment freq - 1),
              daysInMonth (sm + (get_month_increment freq - 1))⟩ ⟨em, ed⟩
          rw [hmin]
          exact date_le_mk_iff.mpr (by omega)
        · obtain ⟨h1, h2, k, hk⟩ := ih4 p hp2
          exact ⟨h1, h2, k + 1, by rw [Nat.succ_mul, hk]; ring⟩
    · have hem : em < sm + get_month_increment freq := by
        rcases Nat.lt_or_ge em (sm + get_month_increment freq) with h | h
        · exact h
        · exact absurd (date_le_mk_iff.mpr (by omega)) hnext
      rw [get_budget_periods_go_nil hnext n]
      have hmin :
          minDate
            ⟨sm + (get_month_increment freq - 1),
              daysInMonth (sm + (get_month_increment freq - 1))⟩ ⟨em, ed⟩ =
            (⟨em, ed⟩ : Date) := by
        unfold minDate
        by_cases hpe :
            (⟨sm + (get_month_increment freq - 1),
              daysInMonth (sm + (get_month_increment freq - 1))⟩ : Date) ≤ ⟨em, ed⟩
        · rw [if_pos hpe]
          rcases date_le_mk_iff.mp hpe with h | ⟨h, h2⟩
          · omega
          · rw [← h] at he2
            simp only [Date.mk.injEq, and_true]
            omega
        · rw [if_neg hpe]
      rw [hmin]
      refine ⟨rfl, rfl, List.chain'_singleton _, ?_⟩
      intro p hp
      rcases List.mem_cons.mp hp with rfl | hp2
      · exact ⟨date_le_mk_iff.mpr (by omega), rfl, 0, by simp⟩
      · simp at hp2

theorem flt_zero (p : ℕ) : flt 0 p = 0 := by
  norm_num [flt, round_half_even]

/-- Evaluation rule for `flt` when the scaled value sits strictly below the
rounding midpoint. -/
theorem flt_eq_of_lt {x : ℚ} {p : ℕ} {n : ℤ} (hf : ⌊x * 10 ^ p⌋ = n)
    (h : x * 10 ^ p - (n : ℚ) < 1/2) : flt x p = (n : ℚ) / 10 ^ p := by
  unfold flt round_half_even
  rw [hf, if_pos h]

/-- C1 (amended): the allocator applies NO remainder correction — with
`distribute_equally` set, every row, the last one included, receives the same
rounded per-period share `flt(budget_amount * (100/N) / 100, 2)` and percent
`flt(100/N, 3)`, where `N` is the number of generated rows. -/
theorem budget_c1_amended (b : BudgetConfig) (hd : b.distribute_equally = true)
    (row : BudgetDistributionRow) (hrow : row ∈ allocate_budget b) :
    row.amount =
      flt (b.budget_amount * ((100 : ℚ) / ((allocate_budget b).length : ℚ)) / 100) 2 ∧
    row.percent = flt ((100 : ℚ) / ((allocate_budget b).length : ℚ)) 3 := by
  have hlen : (allocate_budget b).length =
      (get_budget_periods b.allocation_frequency b.budget_start_date b.budget_end_date).length := by
    simp [allocate_budget]
  simp only [allocate_budget, List.mem_map] at hrow
  obtain ⟨p, hp, heq⟩ := hrow
  have hne :
      (get_budget_periods b.allocation_frequency b.budget_start_date b.budget_end_date).length
        ≠ 0 := by
    intro h0
    rw [List.length_eq_zero] at h0
    rw [h0] at hp
    simp at hp
  rw [← heq, hlen]
  simp only [if_neg hne, add_allocated_amount, hd]
  simp

theorem scenario_periods_length :
    (get_budget_periods Frequency.Monthly (mkDate 2024 1 1) (mkDate 2024 12 31)).length
      = 12 := by decide

/-- Full evaluation of the allocator on the spec's worked scenario. -/
theorem scenario_alloc :
    allocate_budget scenario_cfg =
      (get_budget_periods Frequency.Monthly (mkDate 2024 1 1) (mkDate 2024 12 31)).map
        (fun p => ⟨p.1, p.2, (8333 : ℚ) / 100, (8333 : ℚ) / 1000⟩) := by
  have hA : flt ((1000 : ℚ) * (100 / 12) / 100) 2 = 8333 / 100 := by
    have h := flt_eq_of_lt (x := (1000 : ℚ) * (100 / 12) / 100) (p := 2) (n := 8333)
      (by norm_num [Int.floor_eq_iff]) (by norm_num)
    rw [h]
    norm_num
  have hP : flt ((100 : ℚ) / 12) 3 = 8333 / 1000 := by
    have h := flt_eq_of_lt (x := (100 : ℚ) / 12) (p := 3) (n := 8333)
      (by norm_num [Int.floor_eq_iff]) (by norm_num)
    rw [h]
    norm_num
  have hrp :
      (if (get_budget_periods Frequency.Monthly (mkDate 2024 1 1)
            (mkDate 2024 12 31)).length = 0 then (0 : ℚ)
        else (100 : ℚ) /
          ((get_budget_periods Frequency.Monthly (mkDate 2024 1 1)
            (mkDate 2024 12 31)).length : ℚ)) = 100 / 12 := by
    rw [scenario_periods_length]
    norm_num
  have h1 : (add_allocated_amount true 1000 ((100 : ℚ) / 12)).1 = 8333 / 100 := by
    simp only [add_allocated_amount]
    rw [if_neg (by simp)]
    exact hA
  have h2 : (add_allocated_amount true 1000 ((100 : ℚ) / 12)).2 = 8333 / 1000 := by
    simp only [add_allocated_amount]
    rw [if_neg (by simp)]
    exact hP
  simp only [allocate_budget, scenario_cfg]
  rw [hrp]
  refine List.map_congr_left ?_
  intro p hp
  rw [h1, h2]

/-- C1 counterexample: in the spec's own scenario (1000 over 2024, Monthly) the
code yields twelve rows ALL equal to 83.33 — the last row is not 83.37, the
amounts do not sum to the budget amount, and the percents do not sum to
100. -/
theorem budget_c1_cex :
    ((allocate_budget scenario_cfg).map (·.amount)) = List.replicate 12 (8333 / 100 : ℚ) ∧
    ((allocate_budget scenario_cfg).map (·.amount)).sum ≠ scenario_cfg.budget_amount ∧
    ((allocate_budget scenario_cfg).map (·.amount)).getLast? ≠ some (8337 / 100 : ℚ) ∧
    ((allocate_budget scenario_cfg).map (·.percent)).sum ≠ 100 := by
  have hmapA : (allocate_budget scenario_cfg).map (·.amount)
      = List.replicate 12 (8333 / 100 : ℚ) := by
    rw [scenario_alloc, List.map_map]
    rw [show ((fun r : BudgetDistributionRow => r.amount) ∘
        (fun p : Date × Date =>
          (⟨p.1, p.2, (8333 : ℚ) / 100, (8333 : ℚ) / 1000⟩ : BudgetDistributionRow)))
        = fun _ => (8333 : ℚ) / 100 from rfl]
    rw [List.map_const', scenario_periods_length]
  have hmapP : (allocate_budget scenario_cfg).map (·.percent)
      = List.replicate 12 (8333 / 1000 : ℚ) := by
    rw [scenario_alloc, List.map_map]
    rw [show ((fun r : BudgetDistributionRow => r.percent) ∘
        (fun p : Date × Date =>
          (⟨p.1, p.2, (8333 : ℚ) / 100, (8333 : ℚ) / 1000⟩ : BudgetDistributionRow)))
        = fun _ => (8333 : ℚ) / 1000 from rfl]
    rw [List.map_const', scenario_periods_length]
  refine ⟨hmapA, ?_, ?_, ?_⟩
  · rw [hmapA, List.sum_replicate]
    show (12 : ℕ) • (8333 / 100 : ℚ) ≠ (1000 : ℚ)
    rw [nsmul_eq_mul]
    norm_num
  · rw [hmapA]
    rw [show (List.replicate 12 (8333 / 100 : ℚ)).getLast? = some (8333 / 100 : ℚ) from rfl]
    simp only [ne_eq, Option.some.injEq]
    norm_num
  · rw [hmapP, List.sum_replicate, nsmul_eq_mul]
    norm_num

/-- C1 witness: the first scenario row carries exactly the uniform rounded
share. -/
theorem budget_c1_witness :
    (⟨mkDate 2024 1 1, mkDate 2024 1 31, 8333 / 100, 8333 / 1000⟩ : BudgetDistributionRow) ∈
        allocate_budget scenario_cfg ∧
      (8333 / 100 : ℚ) =
        flt (scenario_cfg.budget_amount *
          ((100 : ℚ) / ((allocate_budget scenario_cfg).length : ℚ)) / 100) 2 := by
  have hmem :
      (⟨mkDate 2024 1 1, mkDate 2024 1 31, 8333 / 100, 8333 / 1000⟩ : BudgetDistributionRow) ∈
        allocate_budget scenario_cfg := by
    rw [scenario_alloc]
    exact List.mem_map_of_mem
      (fun p : Date × Date =>
        (⟨p.1, p.2, (8333 : ℚ) / 100, (8333 : ℚ) / 1000⟩ : BudgetDistributionRow))
      (show (mkDate 2024 1 1, mkDate 2024 1 31) ∈
          get_budget_periods Frequency.Monthly (mkDate 2024 1 1) (mkDate 2024 12 31)
        by decide)
  exact ⟨hmem,
    (budget_c1_amended scenario_cfg rfl
      ⟨mkDate 2024 1 1, mkDate 2024 1 31, 8333 / 100, 8333 / 1000⟩ hmem).1⟩

/-- C2 (amended): for a valid date range the generated periods are ordered,
contiguous and non-overlapping, the last period ends exactly at `end_date`,
and every period starts on the FIRST DAY of a month offset from the month of
`start_date` by a multiple of the frequency increment — so the first period
starts at the first day of the month containing `start_date` (not at
`start_date` itself), and alignment is relative to the start month, not to
calendar quarters / half-years / years. -/
theorem budget_c2_amended (freq : Frequency) (s e : Date)
    (hsd : 1 ≤ s.day) (hed1 : 1 ≤ e.day) (hed2 : e.day ≤ daysInMonth e.months)
    (hse : s ≤ e) :
    (get_budget_periods freq s e).head? =
        some (get_first_day s, minDate (get_period_end (get_first_day s) freq) e) ∧
    ((get_budget_periods freq s e).getLast?).map Prod.snd = some e ∧
    List.Chain' (fun p q => q.1 = day_after p.2) (get_budget_periods freq s e) ∧
    ∀ p ∈ get_budget_periods freq s e,
      p.1 ≤ p.2 ∧ p.1.day = 1 ∧ ∃ k, p.1.months = s.months + k * get_month_increment freq :=
  get_budget_periods_go_spec freq e.months e.day hed1 hed2
    (e.months + 1 - s.months) s.months s.day (le_refl _) hse hsd

/-- C2 counterexample: a Quarterly allocation starting in February 2024 yields
the periods Feb–Apr and May–Jul, which are not aligned to calendar quarters;
and a Monthly allocation starting on 2024-02-15 has its first period starting
on 2024-02-01, not at `start_date`. -/
theorem budget_c2_cex :
    get_budget_periods Frequency.Quarterly (mkDate 2024 2 1) (mkDate 2024 7 31) =
      [(mkDate 2024 2 1, mkDate 2024 4 30), (mkDate 2024 5 1, mkDate 2024 7 31)] ∧
    (¬ ∀ p ∈ get_budget_periods Frequency.Quarterly (mkDate 2024 2 1) (mkDate 2024 7 31),
        (p.1).month % 3 = 1) ∧
    ((get_budget_periods Frequency.Monthly (mkDate 2024 2 15) (mkDate 2024 3 31)).head?).map
        Prod.fst = some (mkDate 2024 2 1) ∧
    mkDate 2024 2 1 ≠ mkDate 2024 2 15 := by decide

/-- C2 witness: the calendar-year-2024 Monthly allocation ends its last period
exactly on 2024-12-31. -/
theorem budget_c2_witness :
    ((get_budget_periods Frequency.Monthly (mkDate 2024 1 1) (mkDate 2024 12 31)).getLast?).map
        Prod.snd = some (mkDate 2024 12 31) :=
  (budget_c2_amended Frequency.Monthly (mkDate 2024 1 1) (mkDate 2024 12 31)
    (by decide) (by decide) (by decide) (by decide)).2.1

/-- C8 (amended): the allocator is total — an inverted date range yields no
rows (the per-period share is defined as 0 rather than divided); a range
inside a single period (including `start = end`) yields exactly one row
spanning from the first day of the start month to `end_date`; and a zero
total amount yields the usual one-row-per-period output with every amount
zero, not a single row or an empty list. -/
theorem budget_c8_amended :
    (∀ b : BudgetConfig, ¬ b.budget_start_date ≤ b.budget_end_date →
      allocate_budget b = []) ∧
    (∀ freq : Frequency, ∀ s e : Date, s ≤ e →
      e ≤ get_period_end (get_first_day s) freq →
      get_budget_periods freq s e = [(get_first_day s, e)]) ∧
    (∀ b : BudgetConfig, b.budget_amount = 0 → ∀ r ∈ allocate_budget b, r.amount = 0) := by
  refine ⟨?_, ?_, ?_⟩
  · intro b h
    unfold allocate_budget
    rw [get_budget_periods_eq, if_neg h]
    simp
  · intro freq s e hse hpe
    obtain ⟨sm, sd⟩ := s
    obtain ⟨em, ed⟩ := e
    have hinc := get_month_increment_pos freq
    have hfd : get_first_day ⟨sm, sd⟩ = (⟨sm, 1⟩ : Date) := rfl
    rw [hfd] at hpe ⊢
    rw [get_period_end_first] at hpe
    have hm : em ≤ sm + (get_month_increment freq - 1) := by
      rcases date_le_mk_iff.mp hpe with h | ⟨h, _⟩ <;> omega
    rw [get_budget_periods_eq, if_pos hse, hfd, get_period_end_first, add_months_first]
    have hnot : ¬ (⟨sm + get_month_increment freq, 1⟩ : Date) ≤ ⟨em, ed⟩ := by
      intro hc
      rcases date_le_mk_iff.mp hc with h | ⟨h, _⟩ <;> omega
    rw [get_budget_periods_eq, if_neg hnot]
    have hmin :
        minDate
          ⟨sm + (get_month_increment freq - 1),
            daysInMonth (sm + (get_month_increment freq - 1))⟩ ⟨em, ed⟩ =
          (⟨em, ed⟩ : Date) := by
      unfold minDate
      by_cases hlepe :
          (⟨sm + (get_month_increment freq - 1),
            daysInMonth (sm + (get_month_increment freq - 1))⟩ : Date) ≤ ⟨em, ed⟩
      · rw [if_pos hlepe]
        rcases date_le_mk_iff.mp hlepe with h | ⟨h, h2⟩ <;>
          rcases date_le_mk_iff.mp hpe with g | ⟨g, g2⟩ <;>
            simp only [Date.mk.injEq] <;> omega
      · rw [if_neg hlepe]
    rw [hmin]
  · intro b h r hr
    simp only [allocate_budget, List.mem_map] at hr
    obtain ⟨p, hp, heq⟩ := hr
    rw [← heq]
    cases hde : b.distribute_equally with
    | false => simp [add_allocated_amount, hde]
    | true => simp [add_allocated_amount, hde, h, flt_zero]

/-- C8 counterexample: a zero budget amount over calendar year 2024 (Monthly)
yields twelve rows — neither exactly one row nor an empty sequence. -/
theorem budget_c8_cex :
    (allocate_budget zero_amount_cfg).length = 12 ∧ (12 : ℕ) ≠ 1 ∧ (12 : ℕ) ≠ 0 := by decide

/-- C8 witness: a one-day range yields exactly one row from the first of the
month to the end date. -/
theorem budget_c8_witness :
    get_budget_periods Frequency.Monthly (mkDate 2024 5 10) (mkDate 2024 5 10) =
      [(get_first_day (mkDate 2024 5 10), mkDate 2024 5 10)] :=
  budget_c8_amended.2.1 Frequency.Monthly (mkDate 2024 5 10) (mkDate 2024 5 10)
    (by decide) (by decide)

/-- C9: with `distribute_equally` unset every regenerated distribution row is
written with amount 0 and percent 0, whatever the budget amount, frequency or
period count. -/
theorem budget_c9_confirmed (b : BudgetConfig) (hd : b.distribute_equally = false) :
    ∀ r ∈ allocate_budget b, r.amount = 0 ∧ r.percent = 0 := by
  intro r hr
  simp only [allocate_budget, List.mem_map] at hr
  obtain ⟨p, hp, heq⟩ := hr
  rw [← heq]
  simp [add_allocated_amount, hd]

/-- C9 witness: the first row of the non-equal-distribution scenario. -/
theorem budget_c9_witness :
    (⟨mkDate 2024 1 1, mkDate 2024 1 31, 0, 0⟩ : BudgetDistributionRow) ∈
        allocate_budget flat_cfg ∧
      ((⟨mkDate 2024 1 1, mkDate 2024 1 31, 0, 0⟩ : BudgetDistributionRow).amount = 0 ∧
        (⟨mkDate 2024 1 1, mkDate 2024 1 31, 0, 0⟩ : BudgetDistributionRow).percent = 0) :=
  ⟨by decide,
   budget_c9_confirmed flat_cfg rfl ⟨mkDate 2024 1 1, mkDate 2024 1 31, 0, 0⟩ (by decide)⟩

theorem compare_mem_queryActual (env : Env) (month_end : Option Date)
    (for_mr for_po : Bool) (budget_amount : ℚ) (action : Action) (amount0 : ℚ) :
    Effect.queryActualExpense month_end ∈
      (compare_expense_with_budget env month_end for_mr for_po budget_amount
        action amount0).1 := by
  simp only [compare_expense_with_budget]
  split_ifs <;> simp

theorem compare_mem_shape (env : Env) (month_end : Option Date)
    (for_mr for_po : Bool) (budget_amount : ℚ) (action : Action) (amount0 : ℚ) :
    ∀ x ∈ (compare_expense_with_budget env month_end for_mr for_po budget_amount
        action amount0).1,
      x = Effect.queryActualExpense month_end ∨ x = Effect.queryRequestedAmount ∨
      x = Effect.queryOrderedAmount ∨ (∃ v d, x = Effect.msgprint v d) ∨
      (∃ v d, x = Effect.throwErr v d) := by
  intro x hx
  simp only [compare_expense_with_budget, pending_queries] at hx
  split_ifs at hx <;> simp_all <;> aesop

theorem compare_not_mem_accum (env : Env) (month_end : Option Date)
    (for_mr for_po : Bool) (budget_amount : ℚ) (action : Action) (amount0 : ℚ)
    (p : Date) :
    Effect.queryAccumulatedMonthlyBudget p ∉
      (compare_expense_with_budget env month_end for_mr for_po budget_amount
        action amount0).1 := by
  intro hx
  rcases compare_mem_shape env month_end for_mr for_po budget_amount action amount0 _ hx with
    h | h | h | ⟨v, d, h⟩ | ⟨v, d, h⟩ <;> simp at h

theorem compare_queryActual_month (env : Env) (month_end : Option Date)
    (for_mr for_po : Bool) (budget_amount : ℚ) (action : Action) (amount0 : ℚ)
    {m : Option Date}
    (hx : Effect.queryActualExpense m ∈
      (compare_expense_with_budget env month_end for_mr for_po budget_amount
        action amount0).1) : m = month_end := by
  rcases compare_mem_shape env month_end for_mr for_po budget_amount action amount0 _ hx with
    h | h | h | ⟨v, d, h⟩ | ⟨v, d, h⟩ <;> simp at h
  exact h

/-- C4: when the projected total expense exceeds the ceiling, the check uses
the "already exceeded" variant with `diff = actual - budget` whenever the
actual expense alone exceeds, and otherwise the "will be exceeded" variant
with `diff = total - budget`; it raises the blocking `BudgetError` exactly
when the resolved action is Stop, and a non-Stop resolution only surfaces the
message. -/
theorem budget_c4_confirmed (env : Env) (month_end : Option Date)
    (for_mr for_po : Bool) (budget_amount : ℚ) (action : Action) (amount0 : ℚ)
    (hexc : get_actual_expense env month_end +
      pending_amount env for_mr for_po amount0 > budget_amount) :
    ((compare_expense_with_budget env month_end for_mr for_po budget_amount
        action amount0).2 = true ↔ resolved_action env action = Action.Stop) ∧
    (resolved_action env action = Action.Stop →
      Effect.throwErr
          (if get_actual_expense env month_end > budget_amount then
            MsgVariant.alreadyExceeded else MsgVariant.willBeExceeded)
          (if get_actual_expense env month_end > budget_amount then
            get_actual_expense env month_end - budget_amount
          else get_actual_expense env month_end +
            pending_amount env for_mr for_po amount0 - budget_amount) ∈
        (compare_expense_with_budget env month_end for_mr for_po budget_amount
          action amount0).1 ∧
      ∀ v d, Effect.msgprint v d ∉
        (compare_expense_with_budget env month_end for_mr for_po budget_amount
          action amount0).1) ∧
    (resolved_action env action ≠ Action.Stop →
      Effect.msgprint
          (if get_actual_expense env month_end > budget_amount then
            MsgVariant.alreadyExceeded else MsgVariant.willBeExceeded)
          (if get_actual_expense env month_end > budget_amount then
            get_actual_expense env month_end - budget_amount
          else get_actual_expense env month_end +
            pending_amount env for_mr for_po amount0 - budget_amount) ∈
        (compare_expense_with_budget env month_end for_mr for_po budget_amount
          action amount0).1 ∧
      ∀ v d, Effect.throwErr v d ∉
        (compare_expense_with_budget env month_end for_mr for_po budget_amount
          action amount0).1) := by
  simp only [compare_expense_with_budget]
  rw [if_pos hexc]
  by_cases hstop : resolved_action env action = Action.Stop
  · rw [if_pos hstop]
    refine ⟨by simp [hstop], fun _ => ⟨?_, ?_⟩, fun hne => absurd hstop hne⟩
    · by_cases hae : get_actual_expense env month_end > budget_amount <;>
        simp [hae, List.mem_append]
    · intro v d
      simp only [pending_queries]
      split_ifs <;> simp
  · rw [if_neg hstop]
    refine ⟨by simp [hstop], fun hs => absurd hs hstop, fun _ => ⟨?_, ?_⟩⟩
    · by_cases hae : get_actual_expense env month_end > budget_amount <;>
        simp [hae, List.mem_append]
    · intro v d
      simp only [pending_queries]
      split_ifs <;> simp

/-- C6: with a configured exception-approver role held by the actor, an
exceeded check with a Stop action is downgraded to Warn — a message is
surfaced and no `BudgetError` is raised. -/
theorem budget_c6_confirmed (env : Env) (month_end : Option Date)
    (for_mr for_po : Bool) (budget_amount : ℚ) (amount0 : ℚ)
    (h1 : env.exception_approver_role_set = true)
    (h2 : env.user_has_approver_role = true)
    (hexc : get_actual_expense env month_end +
      pending_amount env for_mr for_po amount0 > budget_amount) :
    (compare_expense_with_budget env month_end for_mr for_po budget_amount
      Action.Stop amount0).2 = false ∧
    (∃ v d, Effect.msgprint v d ∈
      (compare_expense_with_budget env month_end for_mr for_po budget_amount
        Action.Stop amount0).1) ∧
    (∀ v d, Effect.throwErr v d ∉
      (compare_expense_with_budget env month_end for_mr for_po budget_amount
        Action.Stop amount0).1) := by
  have hra : resolved_action env Action.Stop = Action.Warn := by
    simp [resolved_action, h1, h2]
  simp only [compare_expense_with_budget]
  rw [if_pos hexc, if_neg (by rw [hra]; simp)]
  refine ⟨rfl,
    ⟨if get_actual_expense env month_end > budget_amount then MsgVariant.alreadyExceeded
        else MsgVariant.willBeExceeded,
      if get_actual_expense env month_end > budget_amount then
        get_actual_expense env month_end - budget_amount
      else get_actual_expense env month_end + pending_amount env for_mr for_po amount0
        - budget_amount,
      by simp [List.mem_append]⟩, ?_⟩
  intro v d
  simp only [pending_queries]
  split_ifs <;> simp

/-- C5: the action pair is the MR-specific pair when the document type is
Material Request and the MR applicability flag is set, the PO-specific pair
when the document type is Purchase Order and the PO flag is set, and the base
pair in every other case — the pairs replace each other wholesale. -/
theorem budget_c5_confirmed (doctype : DocKind) (b : BudgetRecordRow) :
    (doctype = DocKind.MaterialRequest → b.for_material_request = true →
      get_actions doctype b =
        (b.action_if_annual_budget_exceeded_on_mr,
          b.action_if_accumulated_monthly_budget_exceeded_on_mr)) ∧
    (doctype = DocKind.PurchaseOrder → b.for_purchase_order = true →
      get_actions doctype b =
        (b.action_if_annual_budget_exceeded_on_po,
          b.action_if_accumulated_monthly_budget_exceeded_on_po)) ∧
    (¬(doctype = DocKind.MaterialRequest ∧ b.for_material_request = true) →
      ¬(doctype = DocKind.PurchaseOrder ∧ b.for_purchase_order = true) →
      get_actions doctype b =
        (b.action_if_annual_budget_exceeded,
          b.action_if_accumulated_monthly_budget_exceeded)) := by
  refine ⟨?_, ?_, ?_⟩
  · intro h1 h2
    simp [get_actions, h1, h2]
  · intro h1 h2
    subst h1
    simp [get_actions, h2]
  · intro h1 h2
    unfold get_actions
    rw [if_neg h1, if_neg h2]

/-- C5 witness: with distinct configured pairs, the MR override pair governs a
Material Request and the base pair governs any other doctype. -/
theorem budget_c5_witness :
    get_actions DocKind.MaterialRequest demo_record_mr = (Action.Warn, Action.Ignore) ∧
    get_actions DocKind.Other demo_record_mr = (Action.Stop, Action.Stop) :=
  ⟨(budget_c5_confirmed DocKind.MaterialRequest demo_record_mr).1 rfl rfl,
   (budget_c5_confirmed DocKind.Other demo_record_mr).2.2 (by simp) (by simp)⟩

theorem demo_actual_expense : get_actual_expense demo_env none = 1200 := by
  have h1 : decide (mkDate 2024 1 1 ≤ mkDate 2024 2 10) = true := by decide
  have h2 : decide (mkDate 2024 2 10 ≤ mkDate 2024 12 31) = true := by decide
  norm_num [get_actual_expense, gl_matches, demo_env, List.filter, h1, h2]

theorem demo_actual_expense_approver :
    get_actual_expense demo_env_approver none = 1200 := by
  have h1 : decide (mkDate 2024 1 1 ≤ mkDate 2024 2 10) = true := by decide
  have h2 : decide (mkDate 2024 2 10 ≤ mkDate 2024 12 31) = true := by decide
  norm_num [get_actual_expense, gl_matches, demo_env_approver, demo_env, List.filter, h1, h2]

/-- C4 witness: the spec's Reject scenario — actual 1200 against a 1000
ceiling with Stop resolves to a thrown `BudgetError` with diff 200 and the
"already exceeded" variant. -/
theorem budget_c4_witness :
    (compare_expense_with_budget demo_env none false false 1000 Action.Stop 50).2 = true ∧
    Effect.throwErr MsgVariant.alreadyExceeded 200 ∈
      (compare_expense_with_budget demo_env none false false 1000 Action.Stop 50).1 := by
  have hpend : pending_amount demo_env false false 50 = 50 := by
    norm_num [pending_amount]
  have hexc : get_actual_expense demo_env none +
      pending_amount demo_env false false 50 > (1000 : ℚ) := by
    rw [demo_actual_expense, hpend]
    norm_num
  have h := budget_c4_confirmed demo_env none false false 1000 Action.Stop 50 hexc
  have hstop : resolved_action demo_env Action.Stop = Action.Stop := by
    simp [resolved_action, demo_env]
  have hae : get_actual_expense demo_env none > (1000 : ℚ) := by
    rw [demo_actual_expense]
    norm_num
  refine ⟨h.1.mpr hstop, ?_⟩
  have h2 := (h.2.1 hstop).1
  rw [if_pos hae, if_pos hae, demo_actual_expense] at h2
  norm_num at h2
  exact h2

/-- C6 witness: the same exceeded check with the approver override active —
no error, a surfaced message instead. -/
theorem budget_c6_witness :
    (compare_expense_with_budget demo_env_approver none false false 1000
      Action.Stop 50).2 = false ∧
    (∃ v d, Effect.msgprint v d ∈
      (compare_expense_with_budget demo_env_approver none false false 1000
        Action.Stop 50).1) ∧
    (∀ v d, Effect.throwErr v d ∉
      (compare_expense_with_budget demo_env_approver none false false 1000
        Action.Stop 50).1) := by
  have hpend : pending_amount demo_env_approver false false 50 = 50 := by
    norm_num [pending_amount]
  have hexc : get_actual_expense demo_env_approver none +
      pending_amount demo_env_approver false false 50 > (1000 : ℚ) := by
    rw [demo_actual_expense_approver, hpend]
    norm_num
  exact budget_c6_confirmed demo_env_approver none false false 1000 50 rfl rfl hexc

/-- Trace of a single-record run whose annual action is active and whose
monthly action is inactive: just the annual compare (with no month-end
bound). -/
theorem validate_single_annual (env : Env) (b : BudgetRecordRow) (e : ℚ)
    (hb : ¬ b.budget_amount = 0)
    (hy : (get_actions env.doctype b).1 = Action.Stop ∨
      (get_actions env.doctype b).1 = Action.Warn)
    (hm : ¬((get_actions env.doctype b).2 = Action.Stop ∨
      (get_actions env.doctype b).2 = Action.Warn)) :
    (validate_budget_records env [b] e).1 =
      (compare_expense_with_budget env none b.for_material_request b.for_purchase_order
        b.budget_amount ((get_actions env.doctype b).1) e).1 := by
  unfold validate_budget_records
  simp only [validate_go]
  rw [if_neg hb, if_pos hy]
  by_cases hc2 : (compare_expense_with_budget env none b.for_material_request
      b.for_purchase_order b.budget_amount ((get_actions env.doctype b).1) e).2 = true
  · rw [if_pos hc2]
  · rw [if_neg hc2, if_neg hm]
    simp [validate_go]

/-- Trace of a single-record run whose annual action is inactive and whose
monthly action is active: the accumulated-budget query followed by the
monthly compare, which carries the last day of the posting month as an upper
bound and the current-and-later distribution-row sum as its ceiling. -/
theorem validate_single_monthly (env : Env) (b : BudgetRecordRow) (e : ℚ)
    (hb : ¬ b.budget_amount = 0)
    (hy : ¬((get_actions env.doctype b).1 = Action.Stop ∨
      (get_actions env.doctype b).1 = Action.Warn))
    (hm : (get_actions env.doctype b).2 = Action.Stop ∨
      (get_actions env.doctype b).2 = Action.Warn) :
    (validate_budget_records env [b] e).1 =
      Effect.queryAccumulatedMonthlyBudget env.posting_date ::
        (compare_expense_with_budget env (some (get_last_day env.posting_date))
          b.for_material_request b.for_purchase_order
          (get_accumulated_monthly_budget b.distribution env.posting_date)
          ((get_actions env.doctype b).2) e).1 := by
  unfold validate_budget_records
  simp only [validate_go]
  rw [if_neg hb, if_neg hy]
  rw [if_neg (by simp), if_pos hm]
  by_cases hc2 : (compare_expense_with_budget env (some (get_last_day env.posting_date))
      b.for_material_request b.for_purchase_order
      (get_accumulated_monthly_budget b.distribution env.posting_date)
      ((get_actions env.doctype b).2) e).2 = true
  · rw [if_pos hc2]
    simp
  · rw [if_neg hc2]
    simp [validate_go]

/-- C7: a record whose resolved action on an axis is Ignore or empty makes
that axis contribute nothing — with both axes inactive the record yields an
empty trace and no error; an inactive monthly axis issues no
accumulated-budget query and no month-end-bounded actual-expense query; an
inactive annual axis issues no unbounded actual-expense query. -/
theorem budget_c7_confirmed (env : Env) (b : BudgetRecordRow) (e : ℚ) :
    ((¬((get_actions env.doctype b).1 = Action.Stop ∨
        (get_actions env.doctype b).1 = Action.Warn)) →
      (¬((get_actions env.doctype b).2 = Action.Stop ∨
        (get_actions env.doctype b).2 = Action.Warn)) →
      validate_budget_records env [b] e = ([], false)) ∧
    ((¬((get_actions env.doctype b).2 = Action.Stop ∨
        (get_actions env.doctype b).2 = Action.Warn)) →
      (∀ p, Effect.queryAccumulatedMonthlyBudget p ∉
        (validate_budget_records env [b] e).1) ∧
      (∀ m, Effect.queryActualExpense (some m) ∉
        (validate_budget_records env [b] e).1)) ∧
    ((¬((get_actions env.doctype b).1 = Action.Stop ∨
        (get_actions env.doctype b).1 = Action.Warn)) →
      Effect.queryActualExpense none ∉ (validate_budget_records env [b] e).1) := by
  refine ⟨?_, ?_, ?_⟩
  · intro hy hm
    by_cases hb : b.budget_amount = 0 <;>
      · unfold validate_budget_records
        simp [validate_go, hb, hy, hm]
  · intro hm
    by_cases hb : b.budget_amount = 0
    · unfold validate_budget_records
      simp [validate_go, hb]
    · by_cases hy : (get_actions env.doctype b).1 = Action.Stop ∨
        (get_actions env.doctype b).1 = Action.Warn
      · have hval := validate_single_annual env b e hb hy hm
        refine ⟨fun p => ?_, fun m => ?_⟩
        · rw [hval]
          exact compare_not_mem_accum env none b.for_material_request b.for_purchase_order
            b.budget_amount ((get_actions env.doctype b).1) e p
        · rw [hval]
          intro hmem
          have h := compare_queryActual_month env none b.for_material_request
            b.for_purchase_order b.budget_amount ((get_actions env.doctype b).1) e hmem
          simp at h
      · unfold validate_budget_records
        simp [validate_go, hb, hy, hm]
  · intro hy
    by_cases hb : b.budget_amount = 0
    · unfold validate_budget_records
      simp [validate_go, hb]
    · by_cases hm : (get_actions env.doctype b).2 = Action.Stop ∨
        (get_actions env.doctype b).2 = Action.Warn
      · rw [validate_single_monthly env b e hb hy hm]
        intro hmem
        rcases List.mem_cons.mp hmem with h | h
        · simp at h
        · have h2 := compare_queryActual_month env (some (get_last_day env.posting_date))
            b.for_material_request b.for_purchase_order
            (get_accumulated_monthly_budget b.distribution env.posting_date)
            ((get_actions env.doctype b).2) e h
          simp at h2
      · unfold validate_budget_records
        simp [validate_go, hb, hy, hm]

/-- C7 witness: a record with Ignore on both axes produces an empty trace and
no error. -/
theorem budget_c7_witness :
    validate_budget_records demo_env [demo_record_ignore] 0 = ([], false) :=
  (budget_c7_confirmed demo_env demo_record_ignore 0).1 (by decide) (by decide)

/-- C10: every record whose budget amount coerces to zero is skipped wholesale
— no query, no message, no error, whatever its actions. -/
theorem budget_c10_confirmed (env : Env) (records : List BudgetRecordRow) (e : ℚ)
    (hz : ∀ b ∈ records, b.budget_amount = 0) :
    validate_budget_records env records e = ([], false) := by
  have main : ∀ (rs : List BudgetRecordRow), (∀ b ∈ rs, b.budget_amount = 0) →
      ∀ me, validate_go env e me rs = ([], false) := by
    intro rs
    induction rs with
    | nil => intro _ _; rfl
    | cons b rest ih =>
      intro hz0 me
      simp only [validate_go]
      rw [if_pos (hz0 b (List.mem_cons_self b rest))]
      exact ih (fun r hr => hz0 r (List.mem_cons_of_mem b hr)) me
  exact main records hz none

/-- C10 witness: a zero-amount record with Stop everywhere is skipped. -/
theorem budget_c10_witness :
    validate_budget_records demo_env [demo_record_zero] 0 = ([], false) :=
  budget_c10_confirmed demo_env [demo_record_zero] 0 (by
    intro b hb
    rw [List.mem_singleton] at hb
    rw [hb]
    rfl)

/-- C3 (amended): the accumulated-monthly ceiling is the sum of the
distribution-row amounts whose `end_date >= posting_date` — the allocation of
the period containing the posting date plus all LATER periods (the total
minus the already-ended periods), not the cumulative allocation up to the
current period; the month-end bound restricts the actual-expense query to
entries posted on or before the given date; and an active monthly check
issues the accumulated-budget query and an actual-expense query bounded by
the last day of the posting month. -/
theorem budget_c3_amended :
    (∀ (rows : List BudgetDistributionRow) (p : Date),
      get_accumulated_monthly_budget rows p =
        ((rows.map (·.amount)).sum) -
          (((rows.filter (fun r => !decide (p ≤ r.end_date))).map (·.amount)).sum)) ∧
    (∀ (env : Env) (m : Date),
      get_actual_expense env (some m) =
        get_actual_expense
          { env with ledger := env.ledger.filter (fun g => decide (g.posting_date ≤ m)) }
          none) ∧
    (∀ (env : Env) (b : BudgetRecordRow) (e : ℚ),
      ¬((get_actions env.doctype b).1 = Action.Stop ∨
        (get_actions env.doctype b).1 = Action.Warn) →
      ((get_actions env.doctype b).2 = Action.Stop ∨
        (get_actions env.doctype b).2 = Action.Warn) →
      ¬ b.budget_amount = 0 →
      Effect.queryAccumulatedMonthlyBudget env.posting_date ∈
        (validate_budget_records env [b] e).1 ∧
      Effect.queryActualExpense (some (get_last_day env.posting_date)) ∈
        (validate_budget_records env [b] e).1) := by
  refine ⟨?_, ?_, ?_⟩
  · intro rows p
    induction rows with
    | nil => simp [get_accumulated_monthly_budget]
    | cons r rs ih =>
      simp only [get_accumulated_monthly_budget, List.filter_cons] at ih ⊢
      by_cases hc : p ≤ r.end_date
      · simp [hc, ih]
        ring
      · simp [hc, ih]
  · intro env m
    have hsplit : ∀ a ∈ env.ledger,
        gl_matches env (some m) a =
          (gl_matches env none a && decide (a.posting_date ≤ m)) := by
      intro a _
      simp [gl_matches, Bool.and_assoc]
    have hl : env.ledger.filter (gl_matches env (some m)) =
        (env.ledger.filter (fun g => decide (g.posting_date ≤ m))).filter
          (gl_matches env none) := by
      rw [List.filter_filter]
      exact List.filter_congr hsplit
    unfold get_actual_expense
    show ((env.ledger.filter (gl_matches env (some m))).map (fun x => x.debit)).sum -
        ((env.ledger.filter (gl_matches env (some m))).map (fun x => x.credit)).sum =
      (((env.ledger.filter (fun g => decide (g.posting_date ≤ m))).filter
          (gl_matches env none)).map (fun x => x.debit)).sum -
        (((env.ledger.filter (fun g => decide (g.posting_date ≤ m))).filter
          (gl_matches env none)).map (fun x => x.credit)).sum
    rw [hl]
  · intro env b e hy hm hb
    rw [validate_single_monthly env b e hb hy hm]
    refine ⟨List.mem_cons_self _ _, List.mem_cons_of_mem _ ?_⟩
    exact compare_mem_queryActual env (some (get_last_day env.posting_date))
      b.for_material_request b.for_purchase_order
      (get_accumulated_monthly_budget b.distribution env.posting_date)
      ((get_actions env.doctype b).2) e

/-- C3 counterexample: with January allocated 10 and February allocated 20,
a posting on 2024-01-15 gets an accumulated-monthly ceiling of 30 (current
plus future periods), while the cumulative allocation up to and including the
current period is 10. -/
theorem budget_c3_cex :
    get_accumulated_monthly_budget demo_rows (mkDate 2024 1 15) = 30 ∧
    spec_cumulative_allocation_to_date demo_rows (mkDate 2024 1 15) = 10 ∧
    (30 : ℚ) ≠ 10 := by
  have h1 : decide (mkDate 2024 1 15 ≤ mkDate 2024 1 31) = true := by decide
  have h2 : decide (mkDate 2024 1 15 ≤ mkDate 2024 2 29) = true := by decide
  have h3 : decide (mkDate 2024 1 1 ≤ mkDate 2024 1 15) = true := by decide
  have h4 : decide (mkDate 2024 2 1 ≤ mkDate 2024 1 15) = false := by decide
  refine ⟨?_, ?_, by norm_num⟩ <;>
    norm_num [get_accumulated_monthly_budget, spec_cumulative_allocation_to_date,
      demo_rows, List.filter, h1, h2, h3, h4]

/-- C3 witness: the demo record with an active monthly axis issues the
accumulated-budget query and the month-end-bounded actual-expense query. -/
theorem budget_c3_witness :
    Effect.queryAccumulatedMonthlyBudget (mkDate 2024 3 15) ∈
        (validate_budget_records demo_env [demo_record_monthly] 0).1 ∧
      Effect.queryActualExpense (some (mkDate 2024 3 31)) ∈
        (validate_budget_records demo_env [demo_record_monthly] 0).1 :=
  budget_c3_amended.2.2 demo_env demo_record_monthly 0
    (by decide) (by decide) (by norm_num [demo_record_monthly, demo_record_ignore, demo_record_mr])

end Erpnext
